import Mathlib

/-!
Shallow embedding of `src/r3/logics.py` (the r3-app content-selection
core) and proofs about it.

Modelling conventions:
* Python `str.split()` (split on whitespace runs, dropping empty fields)
  is modelled by `pySplit`, working on the character list of the string.
* Python `" ".join(...)` is modelled by `pyJoin`.
* Python `str(n)` for a natural number is Lean's `toString n`
  (`Nat.repr`), which produces the same decimal digits.
* Python `int(s)` on a digit string is modelled by `pyInt?` (returning
  `none` where `int()` would raise `ValueError`).
* Django ORM state is passed explicitly: the `Media` table is a
  `List Media`, the `Temp` table a `List (String × String)` of
  `(name, content)` rows.  `Model.objects.get` raising `DoesNotExist`
  is modelled by the `Err.recordNotFound` error; note that in
  `media_get_content` the source's trailing `raise Http404` is
  unreachable because `Media.objects.get` never returns `None`.
* `random.shuffle` is modelled by an explicit `shuffle` function
  parameter; theorems that depend on it being a permutation carry that
  as a hypothesis.
* Timestamps written by `add_state` are passed in as strings.
* `json.dumps({"type": t, "data": d})` is modelled by the two-field
  `Payload` structure (the serialization is injective on such dicts).
-/

namespace R3

/-! ### Python string primitives -/

/-- The whitespace predicate of CPython's `str.split()` with no
arguments (`Py_UNICODE_ISSPACE`): the ASCII whitespace characters
0x09-0x0D, 0x1C-0x1F and space, plus NEL (U+0085) and the Unicode
space and separator characters NBSP (U+00A0), U+1680, U+2000-U+200A,
U+2028, U+2029, U+202F, U+205F and U+3000.  (Lean's `Char.isWhitespace`
covers only space, tab, CR and LF, which would be strictly narrower
than what the program splits on.) -/
def pyIsSpace (c : Char) : Bool :=
  (0x09 ≤ c.toNat ∧ c.toNat ≤ 0x0D) ∨ (0x1C ≤ c.toNat ∧ c.toNat ≤ 0x20)
  ∨ c.toNat = 0x85 ∨ c.toNat = 0xA0 ∨ c.toNat = 0x1680
  ∨ (0x2000 ≤ c.toNat ∧ c.toNat ≤ 0x200A)
  ∨ c.toNat = 0x2028 ∨ c.toNat = 0x2029 ∨ c.toNat = 0x202F
  ∨ c.toNat = 0x205F ∨ c.toNat = 0x3000

/-- Accumulator-style splitter on whitespace runs: `fieldsAux acc cs`
splits `cs` into maximal whitespace-free fields, with `acc` the reversed
partial field already read.  Models CPython's `str.split()` with no
arguments. -/
def fieldsAux : List Char → List Char → List (List Char)
  | acc, [] => if acc = [] then [] else [acc.reverse]
  | acc, c :: cs =>
    if pyIsSpace c then
      if acc = [] then fieldsAux [] cs else acc.reverse :: fieldsAux [] cs
    else fieldsAux (c :: acc) cs

/-- The whitespace-separated fields of a character list. -/
def pyFields (cs : List Char) : List (List Char) := fieldsAux [] cs

/-- Python `s.split()`: whitespace-separated tokens of `s`, empty tokens
dropped. -/
def pySplit (s : String) : List String := (pyFields s.data).map String.mk

/-- Characters of `" ".join(...)`: the given fields interleaved with
single spaces. -/
def joinChars : List (List Char) → List Char
  | [] => []
  | [t] => t
  | t :: ts => t ++ ' ' :: joinChars ts

/-- Python `" ".join(l)`. -/
def pyJoin (l : List String) : String := String.mk (joinChars (l.map String.data))

/-- The numeric value of a decimal digit string. -/
def digitsVal (l : List Char) : Nat :=
  l.foldl (fun a c => a * 10 + (c.toNat - 48)) 0

/-- Python `int(s)` for a non-negative decimal literal; `none` models a
`ValueError`. -/
def pyInt? (s : String) : Option Nat :=
  if s.data ≠ [] ∧ s.data.all Char.isDigit then some (digitsVal s.data)
  else none

/-- Structural (fuel-free) version of `Nat.toDigitsCore` at base 10,
used to reason about the characters of `toString n` for `n : Nat`. -/
def myDigitsAux (n : Nat) (ds : List Char) : List Char :=
  let d := Nat.digitChar (n % 10)
  if h : n / 10 = 0 then d :: ds
  else myDigitsAux (n / 10) (d :: ds)
termination_by n
decreasing_by
  have hn : 0 < n := by
    rcases Nat.eq_zero_or_pos n with h0 | h0
    · subst h0; simp at h
    · exact h0
  exact Nat.div_lt_self hn (by norm_num)

/-! ### Data model -/

/-- A row of the `Media` table.  `lines` is the decoded line content of
the stored file (`content.open / read / decode / splitlines` in the
source), used by the text selector; `url` is `content.url`, used by the
media selector. -/
structure Media where
  id : Nat
  ext : String
  tag : String
  url : String
  lines : List String
deriving Repr, DecidableEq

/-- A row of the `Logic` table (only the fields this module touches). -/
structure Logic where
  pk : Nat
  implement : String
  media_ext : String
  media_tag : String
  media_order : String
  media_list : String
  media_count : Nat
  state : String
deriving Repr, DecidableEq

/-- A `Trial` row: this module only reads its associated `Logic`. -/
structure Trial where
  logic : Logic
deriving Repr, DecidableEq

/-- The failure modes of the embedded code.  `http404` is Django's
`Http404`; `recordNotFound` is an ORM `DoesNotExist` exception (from
`Media.objects.get` or `Temp.objects.get`); `valueError` and
`indexError` are the corresponding Python exceptions. -/
inductive Err where
  | http404
  | recordNotFound
  | valueError
  | indexError
deriving Repr, DecidableEq

/-- The JSON payload `{"type": ptype, "data": data}` returned by the
content accessors. -/
structure Payload where
  ptype : String
  data : String
deriving Repr, DecidableEq

/-- The `Temp` table: rows of `(name, content)`. -/
abbrev TempTable := List (String × String)

/-- `Temp.objects.get(name=name)`, returning the content field. -/
def findTemp (temps : TempTable) (name : String) : Option String :=
  (temps.find? (fun p => p.1 = name)).map (fun p => p.2)

/-- Get-or-create a `Temp` row named `name` and save `content` into it
(lines 280-296 of the source). -/
def setTemp (temps : TempTable) (name content : String) : TempTable :=
  match temps.find? (fun p => p.1 = name) with
  | some _ => temps.map (fun p => if p.1 = name then (p.1, content) else p)
  | none => temps ++ [(name, content)]

/-! ### State logger -/

/-- `add_state(logic, message)`: appends `"<timestamp> <message>\n"` to
`logic.state` and saves.  The timestamp is passed in as `ts`. -/
def add_state (ts : String) (logic : Logic) (message : String) : Logic :=
  { logic with state := logic.state ++ ts ++ " " ++ message ++ "\n" }

/-! ### Media selector -/

/-- The extension test of line 133: `("*" in ext_list) or (media.ext in
ext_list)`. -/
def extMatched (ext_list : List String) (media : Media) : Bool :=
  "*" ∈ ext_list ∨ media.ext ∈ ext_list

/-- The tag test of lines 137-150: wildcard, or the media's tag set is
not disjoint from the filter list. -/
def tagMatched (tag_list : List String) (media : Media) : Bool :=
  "*" ∈ tag_list ∨ (pySplit media.tag).any (fun t => t ∈ tag_list)

/-- One media record passes the whole filter of lines 129-150. -/
def acceptsMedia (ext_list tag_list : List String) (media : Media) : Bool :=
  media.ext ≠ "txt" ∧ extMatched ext_list media ∧ tagMatched tag_list media

/-- The scan loop of lines 126-160: walk the records accumulating
accepted ids in `acc`, stopping (`break`) at the first accepted record
found once `acc` already holds `max` ids. -/
def mediaScan (ext_list tag_list : List String) (max : Nat) :
    List Media → List Nat → List Nat
  | [], acc => acc
  | media :: rest, acc =>
    if media.ext = "txt" then mediaScan ext_list tag_list max rest acc
    else if extMatched ext_list media then
      if tagMatched tag_list media then
        if max ≤ acc.length then acc
        else mediaScan ext_list tag_list max rest (acc ++ [media.id])
      else mediaScan ext_list tag_list max rest acc
    else mediaScan ext_list tag_list max rest acc

/-- Insert a record into a list sorted by descending id. -/
def insertDesc (m : Media) : List Media → List Media
  | [] => [m]
  | x :: xs => if x.id ≤ m.id then m :: x :: xs else x :: insertDesc m xs

/-- `Media.objects.all().order_by("id").reverse()`: the catalog sorted
by descending id. -/
def sortByIdDesc (l : List Media) : List Media := l.foldr insertDesc []

/-- `media_prep` (lines 98-176).  `maxCount` is `MAX_MEDIA_COUNT` from
`models.py` (not under `src/`; the spec only states that it bounds every
produced list, so it is kept as a parameter).  `shuffle` models
`random.shuffle`; `ts1`, `ts2` are the two timestamps. -/
def media_prep (maxCount : Nat) (catalog : List Media)
    (shuffle : List Nat → List Nat) (ts1 ts2 : String) (logic : Logic) : Logic :=
  let logic := add_state ts1 logic "media_prep started."
  let ext_list := pySplit logic.media_ext
  let logic := { logic with media_ext := pyJoin ext_list }
  let tag_list := pySplit logic.media_tag
  let logic := { logic with media_tag := pyJoin tag_list }
  let media_all := sortByIdDesc catalog
  let media_list := mediaScan ext_list tag_list maxCount media_all []
  let media_list := if logic.media_order = "shuffle" then shuffle media_list else media_list
  let logic := { logic with
    media_list := pyJoin (media_list.map toString),
    media_count := media_list.length }
  add_state ts2 logic "media_prep finished."

/-- The index arithmetic shared by both content accessors:
`int(seq) % count`.  Python's `%` with a positive divisor agrees with
`Int.emod`. -/
def seqIndex (seq : Int) (count : Nat) : Nat := (seq % (count : Int)).toNat

/-- `media_get_content` (lines 179-215).  The source's final
`raise Http404` is dead code: `Media.objects.get` raises
`Media.DoesNotExist` (here `Err.recordNotFound`) instead of returning
`None`, so the `if media:` guard always succeeds. -/
def media_get_content (catalog : List Media) (trial : Trial) (seq : Int) :
    Except Err Payload :=
  let logic := trial.logic
  let media_list := pySplit logic.media_list
  let media_count := media_list.length
  if media_count = 0 then Except.ok ⟨"txt", "No data to show"⟩
  else
    let media_index := seqIndex seq media_count
    match pyInt? (media_list.getD media_index "") with
    | none => Except.error Err.valueError
    | some pk =>
      match catalog.find? (fun m => m.id = pk) with
      | some media => Except.ok ⟨media.ext, media.url⟩
      | none => Except.error Err.recordNotFound

/-! ### Text selector -/

/-- The cache key `"text-logic-cache:{}".format(logic.pk)`. -/
def textLogicName (pk : Nat) : String := "text-logic-cache:" ++ toString pk

/-- The per-record test of lines 248-253: extension is `"txt"` and the
record's tag set is not disjoint from the filter list.  Note there is no
wildcard branch here, unlike the media selector. -/
def textAccepts (tag_list : List String) (media : Media) : Bool :=
  media.ext = "txt" ∧ (pySplit media.tag).any (fun t => t ∈ tag_list)

/-- The scan loop of lines 244-259: collect, in catalog order, the lines
of every accepted record. -/
def textSelect (tag_list : List String) : List Media → List String
  | [] => []
  | media :: rest =>
    (if textAccepts tag_list media then media.lines else []) ++ textSelect tag_list rest

/-- `text_prep` (lines 222-299): build the flat line list, an (optionally
shuffled) index list truncated at `maxCount`, store list and count on
the logic, and save the full joined line list into the `Temp` cache. -/
def text_prep (maxCount : Nat) (catalog : List Media) (temps : TempTable)
    (shuffle : List Nat → List Nat) (ts1 ts2 : String) (logic : Logic) :
    Logic × TempTable :=
  let logic := add_state ts1 logic "text_prep started."
  let tag_list := pySplit logic.media_tag
  let logic := { logic with media_tag := pyJoin tag_list }
  let text_list := textSelect tag_list catalog
  let index_list := List.range text_list.length
  let index_list := if logic.media_order = "shuffle" then shuffle index_list else index_list
  let max_index := min index_list.length maxCount
  let logic := { logic with
    media_list := pyJoin ((index_list.take max_index).map toString),
    media_count := max_index }
  let temps := setTemp temps (textLogicName logic.pk) (pyJoin text_list)
  (add_state ts2 logic "text_prep finished.", temps)

/-- `text_get_content` (lines 302-338). -/
def text_get_content (temps : TempTable) (trial : Trial) (seq : Int) :
    Except Err Payload :=
  let logic := trial.logic
  let index_list := pySplit logic.media_list
  let index_count := index_list.length
  if index_count = 0 then Except.ok ⟨"txt", "No data to show"⟩
  else
    match findTemp temps (textLogicName logic.pk) with
    | none => Except.error Err.recordNotFound
    | some content =>
      let text_list := pySplit content
      match pyInt? (index_list.getD (seqIndex seq index_count) "") with
      | none => Except.error Err.valueError
      | some i =>
        match text_list[i]? with
        | some text => Except.ok ⟨"txt", text⟩
        | none => Except.error Err.indexError

/-! ### Blank selector -/

/-- `blank_prep` (lines 341-354): only logs. -/
def blank_prep (ts1 ts2 : String) (logic : Logic) : Logic :=
  add_state ts2 (add_state ts1 logic "blank_prep started.") "blank_prep finished."

/-- `blank_get_content` (lines 357-373). -/
def blank_get_content (_trial : Trial) (_seq : Int) : Except Err Payload :=
  Except.ok ⟨"txt", ""⟩

/-! ### Dispatcher -/

/-- Result of `prep`: the last saved state of the logic row, the `Temp`
table, and whether `Http404` was raised. -/
structure PrepResult where
  logic : Logic
  temps : TempTable
  notFound : Bool
deriving Repr, DecidableEq

/-- `prep` (lines 12-47): reset `media_list`, `media_count`, `state`,
save, and dispatch on `implement`; raise `Http404` (the `notFound` flag)
for an unknown implement, in which case the reset row is what remains
saved. -/
def prep (maxCount : Nat) (catalog : List Media) (temps : TempTable)
    (shuffle : List Nat → List Nat) (ts1 ts2 : String) (logic : Logic) :
    PrepResult :=
  let logic := { logic with media_list := "", media_count := 0, state := "" }
  if logic.implement = "media" then
    ⟨media_prep maxCount catalog shuffle ts1 ts2 logic, temps, false⟩
  else if logic.implement = "text" then
    let r := text_prep maxCount catalog temps shuffle ts1 ts2 logic
    ⟨r.1, r.2, false⟩
  else if logic.implement = "blank" then
    ⟨blank_prep ts1 ts2 logic, temps, false⟩
  else
    ⟨logic, temps, true⟩

/-- `get_content` (lines 50-80): dispatch on `trial.logic.implement`;
raise `Http404` for an unknown implement.  It only reads state. -/
def get_content (catalog : List Media) (temps : TempTable) (trial : Trial)
    (seq : Int) : Except Err Payload :=
  let logic := trial.logic
  if logic.implement = "media" then media_get_content catalog trial seq
  else if logic.implement = "text" then text_get_content temps trial seq
  else if logic.implement = "blank" then blank_get_content trial seq
  else Except.error Err.http404

/-! ### Lemmas about the string primitives -/

theorem fieldsAux_ne_nil (cs : List Char) :
    ∀ acc : List Char, acc ≠ [] → fieldsAux acc cs ≠ [] := by
  induction cs with
  | nil => intro acc h; simp [fieldsAux, h]
  | cons c cs ih =>
    intro acc h
    by_cases hw : pyIsSpace c
    · simp [fieldsAux, hw, h]
    · simp only [fieldsAux, hw, if_false]
      exact ih (c :: acc) (by simp)

theorem fieldsAux_token (t : List Char) (ht : ∀ c ∈ t, pyIsSpace c = false) :
    ∀ acc cs, fieldsAux acc (t ++ cs) = fieldsAux (t.reverse ++ acc) cs := by
  induction t with
  | nil => simp
  | cons c t ih =>
    intro acc cs
    have hc : pyIsSpace c = false := ht c (by simp)
    have ht' : ∀ x ∈ t, pyIsSpace x = false := fun x hx => ht x (by simp [hx])
    simp only [List.cons_append, fieldsAux, hc, Bool.false_eq_true, if_false,
      List.append_eq]
    rw [ih ht' (c :: acc) cs]
    simp [List.reverse_cons, List.append_assoc]

theorem fieldsAux_single (t : List Char) (h1 : t ≠ [])
    (h2 : ∀ c ∈ t, pyIsSpace c = false) : fieldsAux [] t = [t] := by
  have h := fieldsAux_token t h2 [] []
  simp only [List.append_nil] at h
  rw [h]
  simp [fieldsAux, h1]

theorem fieldsAux_space (b : List Char) :
    ∀ (a acc : List Char),
      fieldsAux acc (a ++ ' ' :: b) = fieldsAux acc a ++ fieldsAux [] b := by
  intro a
  induction a with
  | nil =>
    intro acc
    by_cases h : acc = [] <;>
      simp [fieldsAux, h, show pyIsSpace ' ' = true by decide]
  | cons c a ih =>
    intro acc
    by_cases hw : pyIsSpace c
    · by_cases h : acc = [] <;> simp [fieldsAux, hw, h, ih]
    · simp [fieldsAux, hw, ih]

/-- Splitting a single-space join recovers the concatenation of the
fields of each piece. -/
theorem pyFields_joinChars (ts : List (List Char)) :
    pyFields (joinChars ts) = (ts.map pyFields).flatten := by
  induction ts with
  | nil => rfl
  | cons t ts ih =>
    cases ts with
    | nil => simp [joinChars]
    | cons t2 ts2 =>
      show pyFields (t ++ ' ' :: joinChars (t2 :: ts2)) = _
      rw [pyFields, fieldsAux_space]
      simp only [List.map_cons, List.flatten_cons]
      rw [← pyFields, ← pyFields, ih]
      simp [List.flatten_cons]

/-- Round trip: splitting a single-space join of nonempty,
whitespace-free fields gives the fields back. -/
theorem pyFields_joinChars_eq (ts : List (List Char))
    (h1 : ∀ t ∈ ts, t ≠ []) (h2 : ∀ t ∈ ts, ∀ c ∈ t, pyIsSpace c = false) :
    pyFields (joinChars ts) = ts := by
  rw [pyFields_joinChars]
  induction ts with
  | nil => rfl
  | cons t ts ih =>
    simp only [List.map_cons, List.flatten_cons]
    rw [show pyFields t = fieldsAux [] t from rfl,
      fieldsAux_single t (h1 t (by simp)) (h2 t (by simp))]
    rw [ih (fun x hx => h1 x (by simp [hx])) (fun x hx => h2 x (by simp [hx]))]
    rfl

theorem pyFields_ne_nil (t : List Char) :
    ∀ acc, (∃ c ∈ t, pyIsSpace c = false) → fieldsAux acc t ≠ [] := by
  induction t with
  | nil => intro acc h; simp at h
  | cons c t ih =>
    intro acc h
    by_cases hw : pyIsSpace c
    · have h' : ∃ x ∈ t, pyIsSpace x = false := by
        rcases h with ⟨x, hx, hxw⟩
        rcases List.mem_cons.mp hx with rfl | hx
        · rw [hw] at hxw; cases hxw
        · exact ⟨x, hx, hxw⟩
      by_cases ha : acc = [] <;> simp [fieldsAux, hw, ha, ih [] h']
    · simp only [fieldsAux, hw, Bool.false_eq_true, if_false]
      exact fieldsAux_ne_nil t (c :: acc) (by simp)

/-- When every field contains a non-whitespace character, splitting the
join yields at least as many tokens as there were fields. -/
theorem length_le_pyFields_joinChars (ts : List (List Char))
    (h : ∀ t ∈ ts, ∃ c ∈ t, pyIsSpace c = false) :
    ts.length ≤ (pyFields (joinChars ts)).length := by
  rw [pyFields_joinChars]
  induction ts with
  | nil => simp
  | cons t ts ih =>
    simp only [List.map_cons, List.flatten_cons, List.length_cons, List.length_append]
    have h1 : pyFields t ≠ [] := pyFields_ne_nil t [] (h t (by simp))
    have h2 : 1 ≤ (pyFields t).length := by
      rcases List.exists_cons_of_ne_nil h1 with ⟨a, l, hl⟩
      simp [hl]
    have h3 := ih (fun x hx => h x (by simp [hx]))
    omega

/-! ### Decimal representation of naturals -/

theorem toDigitsCore_eq_myDigitsAux :
    ∀ (fuel n : Nat) (ds : List Char), n < fuel →
      Nat.toDigitsCore 10 fuel n ds = myDigitsAux n ds := by
  intro fuel
  induction fuel with
  | zero => intro n ds h; omega
  | succ fuel ih =>
    intro n ds h
    rw [myDigitsAux]
    by_cases h0 : n / 10 = 0
    · simp [Nat.toDigitsCore, h0]
    · have hn : 0 < n := by
        rcases Nat.eq_zero_or_pos n with hz | hz
        · subst hz; simp at h0
        · exact hz
      have hlt : n / 10 < fuel :=
        Nat.lt_of_lt_of_le (Nat.div_lt_self hn (by norm_num)) (by omega)
      simp only [Nat.toDigitsCore, h0, if_false]
      rw [ih (n / 10) _ hlt]
      simp [h0]

/-- The character list of `toString n` for a natural number. -/
theorem toString_nat_data (n : Nat) :
    (toString n).data = myDigitsAux n [] :=
  toDigitsCore_eq_myDigitsAux (n + 1) n [] (Nat.lt_succ_self n)

theorem digitChar_facts :
    ∀ m, m < 10 → (Nat.digitChar m).isDigit = true ∧
      pyIsSpace (Nat.digitChar m) = false ∧ (Nat.digitChar m).toNat - 48 = m := by
  decide

theorem myDigitsAux_all (P : Char → Prop) (hP : ∀ m, m < 10 → P (Nat.digitChar m)) :
    ∀ n ds, (∀ c ∈ ds, P c) → ∀ c ∈ myDigitsAux n ds, P c := by
  intro n
  induction n using Nat.strong_induction_on with
  | _ n ih =>
    intro ds hds c hc
    rw [myDigitsAux] at hc
    have hd : P (Nat.digitChar (n % 10)) := hP _ (Nat.mod_lt _ (by norm_num))
    by_cases h0 : n / 10 = 0
    · simp only [h0, dif_pos] at hc
      rcases List.mem_cons.mp hc with rfl | hc
      · exact hd
      · exact hds c hc
    · simp only [h0, dif_neg, not_false_iff] at hc
      have hn : 0 < n := by
        rcases Nat.eq_zero_or_pos n with hz | hz
        · subst hz; simp at h0
        · exact hz
      refine ih (n / 10) (Nat.div_lt_self hn (by norm_num))
        (Nat.digitChar (n % 10) :: ds) ?_ c hc
      intro x hx
      rcases List.mem_cons.mp hx with rfl | hx
      · exact hd
      · exact hds x hx

theorem myDigitsAux_ne_nil : ∀ n ds, myDigitsAux n ds ≠ [] := by
  intro n
  induction n using Nat.strong_induction_on with
  | _ n ih =>
    intro ds
    rw [myDigitsAux]
    by_cases h0 : n / 10 = 0
    · simp [h0]
    · have hn : 0 < n := by
        rcases Nat.eq_zero_or_pos n with hz | hz
        · subst hz; simp at h0
        · exact hz
      simp only [h0, dif_neg, not_false_iff]
      exact ih (n / 10) (Nat.div_lt_self hn (by norm_num)) _

theorem myDigitsAux_append : ∀ n ds, myDigitsAux n ds = myDigitsAux n [] ++ ds := by
  intro n
  induction n using Nat.strong_induction_on with
  | _ n ih =>
    intro ds
    conv_lhs => rw [myDigitsAux]
    conv_rhs => rw [myDigitsAux]
    by_cases h0 : n / 10 = 0
    · simp [h0]
    · have hn : 0 < n := by
        rcases Nat.eq_zero_or_pos n with hz | hz
        · subst hz; simp at h0
        · exact hz
      have hlt : n / 10 < n := Nat.div_lt_self hn (by norm_num)
      simp only [h0, dif_neg, not_false_iff]
      rw [ih (n / 10) hlt (Nat.digitChar (n % 10) :: ds),
        ih (n / 10) hlt [Nat.digitChar (n % 10)]]
      simp

theorem digitsVal_myDigitsAux : ∀ n, digitsVal (myDigitsAux n []) = n := by
  intro n
  induction n using Nat.strong_induction_on with
  | _ n ih =>
    rw [myDigitsAux]
    by_cases h0 : n / 10 = 0
    · have hn : n < 10 := by
        have := Nat.div_add_mod n 10
        have := Nat.mod_lt n (show 0 < 10 by norm_num)
        omega
      simp only [h0, dif_pos]
      show digitsVal [Nat.digitChar (n % 10)] = n
      have hfact := (digitChar_facts (n % 10) (Nat.mod_lt _ (by norm_num))).2.2
      have hmod : n % 10 = n := Nat.mod_eq_of_lt hn
      rw [hmod] at hfact
      simp [digitsVal, hmod, hfact]
    · have hn : 0 < n := by
        rcases Nat.eq_zero_or_pos n with hz | hz
        · subst hz; simp at h0
        · exact hz
      simp only [h0, dif_neg, not_false_iff]
      rw [myDigitsAux_append (n / 10) [Nat.digitChar (n % 10)]]
      have hval := ih (n / 10) (Nat.div_lt_self hn (by norm_num))
      have hfact := (digitChar_facts (n % 10) (Nat.mod_lt _ (by norm_num))).2.2
      have hdm := Nat.div_add_mod n 10
      simp only [digitsVal, List.foldl_append, List.foldl_cons, List.foldl_nil]
      rw [show List.foldl (fun a c => a * 10 + (c.toNat - 48)) 0
            (myDigitsAux (n / 10) []) = digitsVal (myDigitsAux (n / 10) []) from rfl,
        hval, hfact]
      omega

theorem toString_nat_nonempty (n : Nat) : (toString n).data ≠ [] := by
  rw [toString_nat_data]; exact myDigitsAux_ne_nil n []

theorem toString_nat_not_ws (n : Nat) :
    ∀ c ∈ (toString n).data, pyIsSpace c = false := by
  rw [toString_nat_data]
  exact myDigitsAux_all (fun c => pyIsSpace c = false)
    (fun m hm => (digitChar_facts m hm).2.1) n [] (by simp)

theorem toString_nat_digits (n : Nat) :
    ∀ c ∈ (toString n).data, c.isDigit = true := by
  rw [toString_nat_data]
  exact myDigitsAux_all (fun c => c.isDigit = true)
    (fun m hm => (digitChar_facts m hm).1) n [] (by simp)

/-- Python `int(str(n)) == n`. -/
theorem pyInt?_toString (n : Nat) : pyInt? (toString n) = some n := by
  rw [pyInt?]
  rw [if_pos ⟨toString_nat_nonempty n, List.all_eq_true.mpr
    (fun c hc => toString_nat_digits n c hc)⟩]
  rw [toString_nat_data, digitsVal_myDigitsAux]

theorem toString_nat_inj {a b : Nat} (h : toString a = toString b) : a = b := by
  have ha := pyInt?_toString a
  rw [h, pyInt?_toString b] at ha
  exact (Option.some.injEq _ _ ▸ ha).symm

/-! ### Round trips between `pySplit` and `pyJoin` -/

theorem pySplit_pyJoin (l : List String) (h1 : ∀ s ∈ l, s.data ≠ [])
    (h2 : ∀ s ∈ l, ∀ c ∈ s.data, pyIsSpace c = false) :
    pySplit (pyJoin l) = l := by
  rw [pySplit, pyJoin]
  rw [show (String.mk (joinChars (l.map String.data))).data
        = joinChars (l.map String.data) from rfl]
  rw [pyFields_joinChars_eq (l.map String.data)
    (by intro t ht; rcases List.mem_map.mp ht with ⟨s, hs, rfl⟩; exact h1 s hs)
    (by intro t ht; rcases List.mem_map.mp ht with ⟨s, hs, rfl⟩; exact h2 s hs)]
  rw [List.map_map]
  exact List.map_id'' (fun s => rfl) l

/-- The serialized id/index list written by the selectors parses back to
exactly the written tokens. -/
theorem pySplit_pyJoin_nat (ns : List Nat) :
    pySplit (pyJoin (ns.map toString)) = ns.map toString := by
  apply pySplit_pyJoin
  · intro s hs
    rcases List.mem_map.mp hs with ⟨n, _, rfl⟩
    exact toString_nat_nonempty n
  · intro s hs
    rcases List.mem_map.mp hs with ⟨n, _, rfl⟩
    exact toString_nat_not_ws n

theorem length_pySplit_pyJoin_nat (ns : List Nat) :
    (pySplit (pyJoin (ns.map toString))).length = ns.length := by
  rw [pySplit_pyJoin_nat, List.length_map]

/-- `pySplit ""` is empty. -/
theorem pySplit_empty : pySplit "" = [] := rfl

/-! ### The media scan loop -/

theorem mediaScan_length (el tl : List String) (max : Nat) :
    ∀ (l : List Media) (acc : List Nat), acc.length ≤ max →
      (mediaScan el tl max l acc).length
        = min (acc.length + (l.filter (acceptsMedia el tl)).length) max := by
  intro l
  induction l with
  | nil => intro acc h; simp [mediaScan]; omega
  | cons m rest ih =>
    intro acc h
    by_cases h1 : m.ext = "txt"
    · have ha : acceptsMedia el tl m = false := by simp [acceptsMedia, h1]
      simp only [mediaScan, h1, if_true, List.filter_cons, ha, Bool.false_eq_true,
        if_false]
      exact ih acc h
    · by_cases h2 : extMatched el m = true
      · by_cases h3 : tagMatched tl m = true
        · have ha : acceptsMedia el tl m = true := by
            simp [acceptsMedia, h1, h2, h3]
          by_cases h4 : max ≤ acc.length
          · have hacc : acc.length = max := le_antisymm h h4
            simp only [mediaScan, h1, if_false, h2, if_true, h3, h4, List.filter_cons,
              ha, List.length_cons]
            omega
          · simp only [mediaScan, h1, if_false, h2, if_true, h3, h4, List.filter_cons,
              ha, List.length_cons]
            rw [ih (acc ++ [m.id]) (by simp; omega)]
            simp only [List.length_append, List.length_cons, List.length_nil]
            omega
        · have ha : acceptsMedia el tl m = false := by simp [acceptsMedia, h3]
          simp only [mediaScan, h1, if_false, h2, if_true, h3, List.filter_cons, ha,
            Bool.false_eq_true]
          exact ih acc h
      · have ha : acceptsMedia el tl m = false := by simp [acceptsMedia, h2]
        simp only [mediaScan, h1, if_false, h2, List.filter_cons, ha,
          Bool.false_eq_true]
        exact ih acc h

theorem mediaScan_eq_filter (el tl : List String) (max : Nat) :
    ∀ (l : List Media) (acc : List Nat),
      acc.length + (l.filter (acceptsMedia el tl)).length ≤ max →
      mediaScan el tl max l acc = acc ++ (l.filter (acceptsMedia el tl)).map Media.id := by
  intro l
  induction l with
  | nil => intro acc h; simp [mediaScan]
  | cons m rest ih =>
    intro acc h
    by_cases h1 : m.ext = "txt"
    · have ha : acceptsMedia el tl m = false := by simp [acceptsMedia, h1]
      simp only [mediaScan, h1, if_true, List.filter_cons, ha, Bool.false_eq_true,
        if_false]
      simp only [List.filter_cons, ha, Bool.false_eq_true, if_false] at h
      exact ih acc h
    · by_cases h2 : extMatched el m = true
      · by_cases h3 : tagMatched tl m = true
        · have ha : acceptsMedia el tl m = true := by
            simp [acceptsMedia, h1, h2, h3]
          simp only [List.filter_cons, ha, if_true, List.length_cons] at h
          have h4 : ¬ max ≤ acc.length := by omega
          simp only [mediaScan, h1, if_false, h2, if_true, h3, h4, List.filter_cons,
            ha, List.map_cons]
          rw [ih (acc ++ [m.id]) (by simp; omega)]
          simp
        · have ha : acceptsMedia el tl m = false := by simp [acceptsMedia, h3]
          simp only [List.filter_cons, ha, Bool.false_eq_true, if_false] at h
          simp only [mediaScan, h1, if_false, h2, if_true, h3, List.filter_cons, ha,
            Bool.false_eq_true]
          exact ih acc h
      · have ha : acceptsMedia el tl m = false := by simp [acceptsMedia, h2]
        simp only [List.filter_cons, ha, Bool.false_eq_true, if_false] at h
        simp only [mediaScan, h1, if_false, h2, List.filter_cons, ha,
          Bool.false_eq_true]
        exact ih acc h

/-! ### Sorting and the temp table -/

theorem insertDesc_perm (m : Media) : ∀ l : List Media, (insertDesc m l).Perm (m :: l) := by
  intro l
  induction l with
  | nil => exact List.Perm.refl _
  | cons x xs ih =>
    rw [insertDesc]
    by_cases h : x.id ≤ m.id
    · simp [h]
    · simp only [h, if_false]
      exact (List.Perm.cons x ih).trans (List.Perm.swap m x xs)

theorem sortByIdDesc_perm (l : List Media) : (sortByIdDesc l).Perm l := by
  induction l with
  | nil => exact List.Perm.refl _
  | cons x xs ih =>
    show (insertDesc x (sortByIdDesc xs)).Perm (x :: xs)
    exact (insertDesc_perm x _).trans (List.Perm.cons x ih)

theorem findTemp_append_single (name c : String) :
    ∀ temps : TempTable, temps.find? (fun p => p.1 = name) = none →
      findTemp (temps ++ [(name, c)]) name = some c := by
  intro temps
  induction temps with
  | nil => intro _; simp [findTemp, List.find?]
  | cons p rest ih =>
    intro h
    by_cases hp : p.1 = name
    · rw [List.find?_cons_of_pos _ (by simp [hp])] at h
      cases h
    · rw [List.find?_cons_of_neg _ (by simp [hp])] at h
      rw [List.cons_append, findTemp, List.find?_cons_of_neg _ (by simp [hp])]
      exact ih h

theorem findTemp_overwrite (name c : String) :
    ∀ temps : TempTable, (temps.find? (fun p => p.1 = name)).isSome →
      findTemp (temps.map (fun p => if p.1 = name then (p.1, c) else p)) name
        = some c := by
  intro temps
  induction temps with
  | nil => intro h; cases h
  | cons p rest ih =>
    intro h
    by_cases hp : p.1 = name
    · simp only [List.map_cons, hp, if_true]
      rw [findTemp, List.find?_cons_of_pos _ (by simp [hp])]
      rfl
    · simp only [List.map_cons, hp, if_false]
      rw [findTemp, List.find?_cons_of_neg _ (by simp [hp])]
      rw [List.find?_cons_of_neg _ (by simp [hp])] at h
      exact ih h

/-- After `setTemp`, looking the name up yields the stored content. -/
theorem findTemp_setTemp (temps : TempTable) (name c : String) :
    findTemp (setTemp temps name c) name = some c := by
  rw [setTemp]
  cases h : temps.find? (fun p => p.1 = name) with
  | none => exact findTemp_append_single name c temps h
  | some q => exact findTemp_overwrite name c temps (by rw [h]; rfl)

/-! ### The text scan loop -/

/-- The text scan collects exactly the lines of the txt records whose
tag set intersects the filter list, flattened in catalog order. -/
theorem textSelect_eq (tl : List String) :
    ∀ catalog : List Media,
      textSelect tl catalog
        = ((catalog.filter (textAccepts tl)).map Media.lines).flatten := by
  intro catalog
  induction catalog with
  | nil => rfl
  | cons m rest ih =>
    rw [textSelect]
    by_cases h : textAccepts tl m = true
    · simp [h, List.filter_cons, ih]
    · simp only [Bool.not_eq_true] at h
      simp [h, List.filter_cons, ih]

theorem seqIndex_lt (seq : Int) (count : Nat) (h : 0 < count) :
    seqIndex seq count < count := by
  rw [seqIndex]
  have h0 : (count : Int) ≠ 0 := by
    exact_mod_cast Nat.pos_iff_ne_zero.mp h
  have h1 : 0 ≤ seq % (count : Int) := Int.emod_nonneg seq h0
  have h2 : seq % (count : Int) < (count : Int) :=
    Int.emod_lt_of_pos seq (by exact_mod_cast h)
  omega

/-! ### Shapes of the prep results -/

theorem media_prep_eq (maxCount : Nat) (catalog : List Media)
    (shuffle : List Nat → List Nat) (ts1 ts2 : String) (logic : Logic) :
    media_prep maxCount catalog shuffle ts1 ts2 logic =
      { logic with
        media_ext := pyJoin (pySplit logic.media_ext),
        media_tag := pyJoin (pySplit logic.media_tag),
        media_list := pyJoin
          ((if logic.media_order = "shuffle"
            then shuffle (mediaScan (pySplit logic.media_ext) (pySplit logic.media_tag)
              maxCount (sortByIdDesc catalog) [])
            else mediaScan (pySplit logic.media_ext) (pySplit logic.media_tag)
              maxCount (sortByIdDesc catalog) []).map toString),
        media_count :=
          (if logic.media_order = "shuffle"
            then shuffle (mediaScan (pySplit logic.media_ext) (pySplit logic.media_tag)
              maxCount (sortByIdDesc catalog) [])
            else mediaScan (pySplit logic.media_ext) (pySplit logic.media_tag)
              maxCount (sortByIdDesc catalog) []).length,
        state := logic.state ++ ts1 ++ " " ++ "media_prep started." ++ "\n"
          ++ ts2 ++ " " ++ "media_prep finished." ++ "\n" } := rfl

theorem text_prep_eq (maxCount : Nat) (catalog : List Media) (temps : TempTable)
    (shuffle : List Nat → List Nat) (ts1 ts2 : String) (logic : Logic) :
    text_prep maxCount catalog temps shuffle ts1 ts2 logic =
      ({ logic with
          media_tag := pyJoin (pySplit logic.media_tag),
          media_list := pyJoin
            (((if logic.media_order = "shuffle"
               then shuffle (List.range (textSelect (pySplit logic.media_tag) catalog).length)
               else List.range (textSelect (pySplit logic.media_tag) catalog).length).take
              (min (if logic.media_order = "shuffle"
               then shuffle (List.range (textSelect (pySplit logic.media_tag) catalog).length)
               else List.range (textSelect (pySplit logic.media_tag) catalog).length).length
                maxCount)).map toString),
          media_count :=
            min (if logic.media_order = "shuffle"
               then shuffle (List.range (textSelect (pySplit logic.media_tag) catalog).length)
               else List.range (textSelect (pySplit logic.media_tag) catalog).length).length
              maxCount,
          state := logic.state ++ ts1 ++ " " ++ "text_prep started." ++ "\n"
            ++ ts2 ++ " " ++ "text_prep finished." ++ "\n" },
        setTemp temps (textLogicName logic.pk)
          (pyJoin (textSelect (pySplit logic.media_tag) catalog))) := rfl

theorem blank_prep_eq (ts1 ts2 : String) (logic : Logic) :
    blank_prep ts1 ts2 logic =
      { logic with
        state := logic.state ++ ts1 ++ " " ++ "blank_prep started." ++ "\n"
          ++ ts2 ++ " " ++ "blank_prep finished." ++ "\n" } := rfl

theorem prep_eq_media (maxCount : Nat) (catalog : List Media) (temps : TempTable)
    (shuffle : List Nat → List Nat) (ts1 ts2 : String) (logic : Logic)
    (h : logic.implement = "media") :
    prep maxCount catalog temps shuffle ts1 ts2 logic
      = ⟨media_prep maxCount catalog shuffle ts1 ts2
          { logic with media_list := "", media_count := 0, state := "" },
        temps, false⟩ := by
  simp [prep, h]

theorem prep_eq_text (maxCount : Nat) (catalog : List Media) (temps : TempTable)
    (shuffle : List Nat → List Nat) (ts1 ts2 : String) (logic : Logic)
    (h : logic.implement = "text") :
    prep maxCount catalog temps shuffle ts1 ts2 logic
      = ⟨(text_prep maxCount catalog temps shuffle ts1 ts2
            { logic with media_list := "", media_count := 0, state := "" }).1,
        (text_prep maxCount catalog temps shuffle ts1 ts2
            { logic with media_list := "", media_count := 0, state := "" }).2,
        false⟩ := by
  simp [prep, h]

theorem prep_eq_blank (maxCount : Nat) (catalog : List Media) (temps : TempTable)
    (shuffle : List Nat → List Nat) (ts1 ts2 : String) (logic : Logic)
    (h : logic.implement = "blank") :
    prep maxCount catalog temps shuffle ts1 ts2 logic
      = ⟨blank_prep ts1 ts2
          { logic with media_list := "", media_count := 0, state := "" },
        temps, false⟩ := by
  simp [prep, h]

theorem prep_eq_unknown (maxCount : Nat) (catalog : List Media) (temps : TempTable)
    (shuffle : List Nat → List Nat) (ts1 ts2 : String) (logic : Logic)
    (h1 : logic.implement ≠ "media") (h2 : logic.implement ≠ "text")
    (h3 : logic.implement ≠ "blank") :
    prep maxCount catalog temps shuffle ts1 ts2 logic
      = ⟨{ logic with media_list := "", media_count := 0, state := "" },
        temps, true⟩ := by
  simp [prep, h1, h2, h3]

/-! ### Membership helpers -/

theorem mem_map_toString (ns : List Nat) (n : Nat) :
    toString n ∈ ns.map toString ↔ n ∈ ns := by
  constructor
  · intro h
    rcases List.mem_map.mp h with ⟨x, hx, he⟩
    exact toString_nat_inj he ▸ hx
  · intro h
    exact List.mem_map_of_mem toString h

theorem mem_filter_map_id (catalog : List Media) (p : Media → Bool)
    (hids : (catalog.map Media.id).Nodup) (m : Media) (hm : m ∈ catalog) :
    m.id ∈ (catalog.filter p).map Media.id ↔ p m = true := by
  constructor
  · intro h
    rcases List.mem_map.mp h with ⟨m2, hm2, hid⟩
    have hm2c : m2 ∈ catalog := List.mem_of_mem_filter hm2
    have heq : m2 = m := List.inj_on_of_nodup_map hids hm2c hm hid
    exact heq ▸ List.of_mem_filter hm2
  · intro h
    exact List.mem_map_of_mem Media.id (List.mem_filter.mpr ⟨hm, h⟩)

/-! ### The claims -/

/-- C1: in a media-mode prep whose matching set fits under the cap, a
catalog record is selected (its id appears in the stored `media_list`)
iff its extension is not `"txt"`, its extension passes the extension
filter (wildcard or exact membership), and its tags intersect the tag
filter (or the tag filter is the wildcard); and on the spec's concrete
catalog `[{id 1, jpg, "a b"}, {id 2, txt, "a"}, {id 3, png, "c"}]` with
filters `ext = ["*"]`, `tag = ["a"]` and sequential order, prep selects
exactly `[1]` and sets `media_count` to `1`. -/
theorem C1_media_selection (maxCount : Nat) (catalog : List Media)
    (temps : TempTable) (shuffle : List Nat → List Nat) (ts1 ts2 : String)
    (logic : Logic)
    (himpl : logic.implement = "media")
    (hshuf : ∀ l : List Nat, (shuffle l).Perm l)
    (hids : (catalog.map Media.id).Nodup)
    (hcap : (catalog.filter (acceptsMedia (pySplit logic.media_ext)
        (pySplit logic.media_tag))).length ≤ maxCount) :
    (∀ m ∈ catalog,
      (toString m.id ∈
        pySplit (prep maxCount catalog temps shuffle ts1 ts2 logic).logic.media_list
      ↔ acceptsMedia (pySplit logic.media_ext) (pySplit logic.media_tag) m = true))
    ∧ (prep 100 [⟨1, "jpg", "a b", "u1", []⟩, ⟨2, "txt", "a", "u2", []⟩,
          ⟨3, "png", "c", "u3", []⟩] [] (fun l => l) "" ""
          ⟨9, "media", "*", "a", "sequential", "", 0, ""⟩).logic.media_list = "1"
    ∧ (prep 100 [⟨1, "jpg", "a b", "u1", []⟩, ⟨2, "txt", "a", "u2", []⟩,
          ⟨3, "png", "c", "u3", []⟩] [] (fun l => l) "" ""
          ⟨9, "media", "*", "a", "sequential", "", 0, ""⟩).logic.media_count = 1 := by
  refine ⟨?_, by decide, by decide⟩
  intro m hm
  rw [prep_eq_media maxCount catalog temps shuffle ts1 ts2 logic himpl, media_prep_eq]
  dsimp only
  have key : ∀ ids2 : List Nat,
      ids2.Perm ((catalog.filter (acceptsMedia (pySplit logic.media_ext)
        (pySplit logic.media_tag))).map Media.id) →
      (toString m.id ∈ pySplit (pyJoin (ids2.map toString))
        ↔ acceptsMedia (pySplit logic.media_ext) (pySplit logic.media_tag) m = true) := by
    intro ids2 hperm
    rw [pySplit_pyJoin_nat ids2, mem_map_toString, hperm.mem_iff,
      mem_filter_map_id catalog _ hids m hm]
  have hsortlen : ((sortByIdDesc catalog).filter (acceptsMedia (pySplit logic.media_ext)
        (pySplit logic.media_tag))).length
      = (catalog.filter (acceptsMedia (pySplit logic.media_ext)
        (pySplit logic.media_tag))).length :=
    ((sortByIdDesc_perm catalog).filter _).length_eq
  have hbase : (mediaScan (pySplit logic.media_ext) (pySplit logic.media_tag)
        maxCount (sortByIdDesc catalog) []).Perm
      ((catalog.filter (acceptsMedia (pySplit logic.media_ext)
        (pySplit logic.media_tag))).map Media.id) := by
    rw [mediaScan_eq_filter _ _ maxCount (sortByIdDesc catalog) []
      (by simpa [hsortlen] using hcap)]
    simp only [List.nil_append]
    exact ((sortByIdDesc_perm catalog).filter _).map Media.id
  by_cases ho : logic.media_order = "shuffle"
  · rw [if_pos ho]
    exact key _ ((hshuf _).trans hbase)
  · rw [if_neg ho]
    exact key _ hbase

/-- Witness for C1: on the spec's concrete catalog the record with id 1
is selected, obtained by instantiating `C1_media_selection`. -/
theorem C1_media_selection_witness :
    toString (1 : Nat) ∈ pySplit (prep 100 [⟨1, "jpg", "a b", "u1", []⟩,
        ⟨2, "txt", "a", "u2", []⟩, ⟨3, "png", "c", "u3", []⟩] [] (fun l => l) "" ""
        ⟨9, "media", "*", "a", "sequential", "", 0, ""⟩).logic.media_list := by
  have h := C1_media_selection 100 [⟨1, "jpg", "a b", "u1", []⟩,
      ⟨2, "txt", "a", "u2", []⟩, ⟨3, "png", "c", "u3", []⟩] [] (fun l => l) "" ""
      ⟨9, "media", "*", "a", "sequential", "", 0, ""⟩ rfl (fun l => List.Perm.refl l)
      (by decide) (by decide)
  exact (h.1 ⟨1, "jpg", "a b", "u1", []⟩ (by decide)).mpr (by decide)

/-- Evaluating `text_get_content` on a logic whose prepared list is
`"0 1 2"` and whose cache entry is `"a b c"`, at `seq = 1`. -/
theorem text_get_content_012 (L : Logic) (temps2 : TempTable)
    (hL : L.media_list = "0 1 2")
    (hT : findTemp temps2 (textLogicName L.pk) = some "a b c") :
    text_get_content temps2 ⟨L⟩ 1 = Except.ok ⟨"txt", "b"⟩ := by
  simp only [text_get_content, hL, hT]
  rfl

/-- C2: over exactly two matching txt records whose line contents are
`["a", "b"]` and `["c"]` in scan order, a text-mode prep without shuffle
stores the cache content `"a b c"` and `media_list` `"0 1 2"` with
`media_count` 3, and `text_get_content` at `seq = 1` then returns the
payload `{type: "txt", data: "b"}`. -/
theorem C2_text_roundtrip (maxCount : Nat) (temps : TempTable)
    (shuffle : List Nat → List Nat) (ts1 ts2 : String) (logic : Logic)
    (i1 i2 : Nat) (t1 t2 u1 u2 : String)
    (himpl : logic.implement = "text")
    (horder : logic.media_order = "sequential")
    (hmax : 3 ≤ maxCount)
    (hm1 : textAccepts (pySplit logic.media_tag) ⟨i1, "txt", t1, u1, ["a", "b"]⟩ = true)
    (hm2 : textAccepts (pySplit logic.media_tag) ⟨i2, "txt", t2, u2, ["c"]⟩ = true) :
    findTemp (prep maxCount [⟨i1, "txt", t1, u1, ["a", "b"]⟩,
        ⟨i2, "txt", t2, u2, ["c"]⟩] temps shuffle ts1 ts2 logic).temps
      (textLogicName logic.pk) = some "a b c"
    ∧ (prep maxCount [⟨i1, "txt", t1, u1, ["a", "b"]⟩,
        ⟨i2, "txt", t2, u2, ["c"]⟩] temps shuffle ts1 ts2 logic).logic.media_list
      = "0 1 2"
    ∧ (prep maxCount [⟨i1, "txt", t1, u1, ["a", "b"]⟩,
        ⟨i2, "txt", t2, u2, ["c"]⟩] temps shuffle ts1 ts2 logic).logic.media_count = 3
    ∧ text_get_content
        (prep maxCount [⟨i1, "txt", t1, u1, ["a", "b"]⟩,
          ⟨i2, "txt", t2, u2, ["c"]⟩] temps shuffle ts1 ts2 logic).temps
        ⟨(prep maxCount [⟨i1, "txt", t1, u1, ["a", "b"]⟩,
          ⟨i2, "txt", t2, u2, ["c"]⟩] temps shuffle ts1 ts2 logic).logic⟩ 1
      = Except.ok ⟨"txt", "b"⟩ := by
  have hsel : textSelect (pySplit logic.media_tag)
      [⟨i1, "txt", t1, u1, ["a", "b"]⟩, ⟨i2, "txt", t2, u2, ["c"]⟩]
      = ["a", "b", "c"] := by
    simp [textSelect, hm1, hm2]
  have hno := eq_false (show ¬(("sequential" : String) = "shuffle") by decide)
  have hj : pyJoin (((List.range 3).take (min 3 maxCount)).map toString) = "0 1 2" := by
    rw [min_eq_left hmax]; decide
  have hc : pyJoin ["a", "b", "c"] = "a b c" := by decide
  rw [prep_eq_text maxCount _ temps shuffle ts1 ts2 logic himpl, text_prep_eq]
  dsimp only
  rw [hsel]
  simp only [horder, hno, if_false, List.length_cons, List.length_nil,
    List.length_range, hc, hj]
  refine ⟨findTemp_setTemp temps _ _, trivial, min_eq_left hmax, ?_⟩
  exact text_get_content_012 _ _ rfl (findTemp_setTemp temps _ _)

/-- Witness for C2 at a fully concrete input. -/
theorem C2_text_roundtrip_witness :
    findTemp (prep 10 [⟨1, "txt", "t", "u1", ["a", "b"]⟩, ⟨2, "txt", "t", "u2", ["c"]⟩]
        [] (fun l => l) "" "" ⟨7, "text", "", "t", "sequential", "", 0, ""⟩).temps
      (textLogicName 7) = some "a b c"
    ∧ text_get_content
        (prep 10 [⟨1, "txt", "t", "u1", ["a", "b"]⟩, ⟨2, "txt", "t", "u2", ["c"]⟩]
          [] (fun l => l) "" "" ⟨7, "text", "", "t", "sequential", "", 0, ""⟩).temps
        ⟨(prep 10 [⟨1, "txt", "t", "u1", ["a", "b"]⟩, ⟨2, "txt", "t", "u2", ["c"]⟩]
          [] (fun l => l) "" "" ⟨7, "text", "", "t", "sequential", "", 0, ""⟩).logic⟩ 1
      = Except.ok ⟨"txt", "b"⟩ := by
  have h := C2_text_roundtrip 10 [] (fun l => l) "" ""
    ⟨7, "text", "", "t", "sequential", "", 0, ""⟩ 1 2 "t" "t" "u1" "u2"
    rfl rfl (by decide) (by decide) (by decide)
  exact ⟨h.1, h.2.2.2⟩

/-- C3: after every successful prep — any implement variant, any shuffle
function — the stored `media_count` equals the number of
whitespace-separated tokens obtained by parsing the stored `media_list`
string. -/
theorem C3_count_invariant (maxCount : Nat) (catalog : List Media)
    (temps : TempTable) (shuffle : List Nat → List Nat) (ts1 ts2 : String)
    (logic : Logic)
    (hok : (prep maxCount catalog temps shuffle ts1 ts2 logic).notFound = false) :
    (prep maxCount catalog temps shuffle ts1 ts2 logic).logic.media_count
      = (pySplit
          (prep maxCount catalog temps shuffle ts1 ts2 logic).logic.media_list).length := by
  by_cases h1 : logic.implement = "media"
  · rw [prep_eq_media maxCount catalog temps shuffle ts1 ts2 logic h1, media_prep_eq]
    dsimp only
    rw [length_pySplit_pyJoin_nat]
  · by_cases h2 : logic.implement = "text"
    · rw [prep_eq_text maxCount catalog temps shuffle ts1 ts2 logic h2, text_prep_eq]
      dsimp only
      rw [length_pySplit_pyJoin_nat, List.length_take]
      omega
    · by_cases h3 : logic.implement = "blank"
      · rw [prep_eq_blank maxCount catalog temps shuffle ts1 ts2 logic h3, blank_prep_eq]
        rfl
      · rw [prep_eq_unknown maxCount catalog temps shuffle ts1 ts2 logic h1 h2 h3] at hok
        simp at hok

/-- Witness for C3 at a concrete successful prep. -/
theorem C3_count_invariant_witness :
    (prep 10 [⟨1, "jpg", "a", "u1", []⟩] [] (fun l => l) "" ""
        ⟨1, "media", "*", "*", "sequential", "x", 5, "s"⟩).notFound = false
    ∧ (prep 10 [⟨1, "jpg", "a", "u1", []⟩] [] (fun l => l) "" ""
        ⟨1, "media", "*", "*", "sequential", "x", 5, "s"⟩).logic.media_count
      = (pySplit (prep 10 [⟨1, "jpg", "a", "u1", []⟩] [] (fun l => l) "" ""
        ⟨1, "media", "*", "*", "sequential", "x", 5, "s"⟩).logic.media_list).length :=
  ⟨by decide, C3_count_invariant 10 [⟨1, "jpg", "a", "u1", []⟩] [] (fun l => l) "" ""
    ⟨1, "media", "*", "*", "sequential", "x", 5, "s"⟩ (by decide)⟩

/-- C4: a media-mode prep over a catalog with strictly more than
`MAX_MEDIA_COUNT` matching records produces an id list of length exactly
`MAX_MEDIA_COUNT` — reflected both in `media_count` and in the parsed
`media_list`. -/
theorem C4_cap (maxCount : Nat) (catalog : List Media) (temps : TempTable)
    (shuffle : List Nat → List Nat) (ts1 ts2 : String) (logic : Logic)
    (himpl : logic.implement = "media")
    (hshuf : ∀ l : List Nat, (shuffle l).Perm l)
    (hover : maxCount < (catalog.filter (acceptsMedia (pySplit logic.media_ext)
        (pySplit logic.media_tag))).length) :
    (prep maxCount catalog temps shuffle ts1 ts2 logic).logic.media_count = maxCount
    ∧ (pySplit
        (prep maxCount catalog temps shuffle ts1 ts2 logic).logic.media_list).length
      = maxCount := by
  rw [prep_eq_media maxCount catalog temps shuffle ts1 ts2 logic himpl, media_prep_eq]
  dsimp only
  have hsortlen : ((sortByIdDesc catalog).filter (acceptsMedia (pySplit logic.media_ext)
        (pySplit logic.media_tag))).length
      = (catalog.filter (acceptsMedia (pySplit logic.media_ext)
        (pySplit logic.media_tag))).length :=
    ((sortByIdDesc_perm catalog).filter _).length_eq
  have hlen : (mediaScan (pySplit logic.media_ext) (pySplit logic.media_tag)
      maxCount (sortByIdDesc catalog) []).length = maxCount := by
    rw [mediaScan_length _ _ maxCount (sortByIdDesc catalog) [] (by simp)]
    rw [List.length_nil, hsortlen]
    omega
  have hiflen : (if logic.media_order = "shuffle"
      then shuffle (mediaScan (pySplit logic.media_ext) (pySplit logic.media_tag)
        maxCount (sortByIdDesc catalog) [])
      else mediaScan (pySplit logic.media_ext) (pySplit logic.media_tag)
        maxCount (sortByIdDesc catalog) []).length = maxCount := by
    by_cases ho : logic.media_order = "shuffle"
    · rw [if_pos ho, (hshuf _).length_eq, hlen]
    · rw [if_neg ho, hlen]
  exact ⟨hiflen, by rw [length_pySplit_pyJoin_nat]; exact hiflen⟩

/-- Witness for C4: two matching records, cap 1. -/
theorem C4_cap_witness :
    1 < ([⟨1, "jpg", "a", "u1", []⟩, ⟨2, "png", "a", "u2", []⟩].filter
        (acceptsMedia (pySplit "*") (pySplit "*"))).length
    ∧ (prep 1 [⟨1, "jpg", "a", "u1", []⟩, ⟨2, "png", "a", "u2", []⟩] [] (fun l => l)
        "" "" ⟨1, "media", "*", "*", "sequential", "", 0, ""⟩).logic.media_count = 1
    ∧ (pySplit (prep 1 [⟨1, "jpg", "a", "u1", []⟩, ⟨2, "png", "a", "u2", []⟩] []
        (fun l => l) "" ""
        ⟨1, "media", "*", "*", "sequential", "", 0, ""⟩).logic.media_list).length = 1 := by
  have h := C4_cap 1 [⟨1, "jpg", "a", "u1", []⟩, ⟨2, "png", "a", "u2", []⟩] []
    (fun l => l) "" "" ⟨1, "media", "*", "*", "sequential", "", 0, ""⟩ rfl
    (fun l => List.Perm.refl l) (by decide)
  exact ⟨by decide, h.1, h.2⟩

theorem seqIndex_count (count : Nat) : seqIndex (count : Int) count = seqIndex 0 count := by
  rw [seqIndex, seqIndex, Int.emod_self, Int.zero_emod]

theorem seqIndex_add_count (k : Nat) (count : Nat) :
    seqIndex ((count : Int) + k) count = seqIndex k count := by
  rw [seqIndex, seqIndex,
    show ((count : Int) + k) = (k : Int) + (count : Int) * 1 by ring,
    Int.add_mul_emod_self_left]

theorem media_get_content_congr_seq (catalog : List Media) (trial : Trial)
    (s1 s2 : Int)
    (h : seqIndex s1 (pySplit trial.logic.media_list).length
       = seqIndex s2 (pySplit trial.logic.media_list).length) :
    media_get_content catalog trial s1 = media_get_content catalog trial s2 := by
  simp only [media_get_content, h]

/-- C5: for a media-mode logic with a non-empty prepared list of length
`count`, `get_content` at `seq = count` equals `seq = 0`, and at
`seq = count + k` equals `seq = k` for every non-negative `k`. -/
theorem C5_wraparound (catalog : List Media) (temps : TempTable) (trial : Trial)
    (k : Nat)
    (himpl : trial.logic.implement = "media")
    (hne : pySplit trial.logic.media_list ≠ []) :
    get_content catalog temps trial ((pySplit trial.logic.media_list).length : Int)
      = get_content catalog temps trial 0
    ∧ get_content catalog temps trial
        (((pySplit trial.logic.media_list).length : Int) + k)
      = get_content catalog temps trial k := by
  constructor
  · simp only [get_content, himpl, if_true, eq_self_iff_true]
    exact media_get_content_congr_seq catalog trial _ _ (seqIndex_count _)
  · simp only [get_content, himpl, if_true, eq_self_iff_true]
    exact media_get_content_congr_seq catalog trial _ _ (seqIndex_add_count k _)

/-- Witness for C5 with `count = 2`, `k = 5`. -/
theorem C5_wraparound_witness :
    get_content [⟨3, "jpg", "a", "u3", []⟩, ⟨1, "png", "b", "u1", []⟩] []
        ⟨⟨9, "media", "*", "*", "sequential", "3 1", 2, ""⟩⟩
        ((pySplit ("3 1" : String)).length : Int)
      = get_content [⟨3, "jpg", "a", "u3", []⟩, ⟨1, "png", "b", "u1", []⟩] []
        ⟨⟨9, "media", "*", "*", "sequential", "3 1", 2, ""⟩⟩ 0
    ∧ get_content [⟨3, "jpg", "a", "u3", []⟩, ⟨1, "png", "b", "u1", []⟩] []
        ⟨⟨9, "media", "*", "*", "sequential", "3 1", 2, ""⟩⟩
        (((pySplit ("3 1" : String)).length : Int) + (5 : Nat))
      = get_content [⟨3, "jpg", "a", "u3", []⟩, ⟨1, "png", "b", "u1", []⟩] []
        ⟨⟨9, "media", "*", "*", "sequential", "3 1", 2, ""⟩⟩ (5 : Nat) :=
  C5_wraparound [⟨3, "jpg", "a", "u3", []⟩, ⟨1, "png", "b", "u1", []⟩] []
    ⟨⟨9, "media", "*", "*", "sequential", "3 1", 2, ""⟩⟩ 5 rfl (by decide)

/-- C6: for an unrecognized `implement`, `prep` raises the not-found
error after persisting the reset values (`media_list = ""`,
`media_count = 0`, `state = ""`, temp table untouched), and
`get_content` raises the same error; the embedding of `get_content` is a
pure reader, so no state is modified. -/
theorem C6_unknown_implement (maxCount : Nat) (catalog : List Media)
    (temps : TempTable) (shuffle : List Nat → List Nat) (ts1 ts2 : String)
    (logic : Logic) (seq : Int)
    (h1 : logic.implement ≠ "media") (h2 : logic.implement ≠ "text")
    (h3 : logic.implement ≠ "blank") :
    prep maxCount catalog temps shuffle ts1 ts2 logic
      = ⟨{ logic with media_list := "", media_count := 0, state := "" }, temps, true⟩
    ∧ get_content catalog temps ⟨logic⟩ seq = Except.error Err.http404 := by
  refine ⟨prep_eq_unknown maxCount catalog temps shuffle ts1 ts2 logic h1 h2 h3, ?_⟩
  simp [get_content, h1, h2, h3]

/-- Witness for C6 with `implement = "bogus"`. -/
theorem C6_unknown_implement_witness :
    prep 10 [] [("n", "c")] (fun l => l) "" ""
        ⟨2, "bogus", "e", "g", "sequential", "x", 4, "s"⟩
      = ⟨⟨2, "bogus", "e", "g", "sequential", "", 0, ""⟩, [("n", "c")], true⟩
    ∧ get_content [] [("n", "c")] ⟨⟨2, "bogus", "e", "g", "sequential", "x", 4, "s"⟩⟩
        (-3) = Except.error Err.http404 :=
  C6_unknown_implement 10 [] [("n", "c")] (fun l => l) "" ""
    ⟨2, "bogus", "e", "g", "sequential", "x", 4, "s"⟩ (-3)
    (by decide) (by decide) (by decide)

/-- C7: `media_get_content` fails with the record-not-found error (the
ORM's `DoesNotExist`, the spec's `RecordNotFound` class) when the
selected id resolves to no catalog record, and `text_get_content` fails
the same way when no `Temp` cache entry exists for the logic. -/
theorem C7_not_found (catalog : List Media) (temps : TempTable)
    (lm lt : Logic) (seqm seqt : Int) (pk : Nat)
    (hmimpl : lm.implement = "media")
    (hmne : pySplit lm.media_list ≠ [])
    (hparse : pyInt? ((pySplit lm.media_list).getD
        (seqIndex seqm (pySplit lm.media_list).length) "") = some pk)
    (hfind : catalog.find? (fun m => m.id = pk) = none)
    (htimpl : lt.implement = "text")
    (htne : pySplit lt.media_list ≠ [])
    (htfind : findTemp temps (textLogicName lt.pk) = none) :
    get_content catalog temps ⟨lm⟩ seqm = Except.error Err.recordNotFound
    ∧ get_content catalog temps ⟨lt⟩ seqt = Except.error Err.recordNotFound := by
  constructor
  · simp only [get_content, hmimpl, if_true, eq_self_iff_true]
    simp only [media_get_content, hparse, hfind]
    rw [if_neg (by simpa [List.length_eq_zero] using hmne)]
  · simp only [get_content, htimpl, if_true, eq_self_iff_true,
      if_neg (show ¬ (("text" : String) = "media") by decide)]
    simp only [text_get_content, htfind]
    rw [if_neg (by simpa [List.length_eq_zero] using htne)]

/-- Witness for C7: a stale id 5 over an empty catalog, and a text logic
with no cache entry. -/
theorem C7_not_found_witness :
    get_content [] [] ⟨⟨1, "media", "*", "*", "sequential", "5", 1, ""⟩⟩ 0
      = Except.error Err.recordNotFound
    ∧ get_content [] [] ⟨⟨2, "text", "*", "*", "sequential", "0", 1, ""⟩⟩ 0
      = Except.error Err.recordNotFound :=
  C7_not_found [] [] ⟨1, "media", "*", "*", "sequential", "5", 1, ""⟩
    ⟨2, "text", "*", "*", "sequential", "0", 1, ""⟩ 0 0 5 rfl (by decide)
    (by decide) rfl rfl (by decide) rfl

/-- C10: for every integer `seq`, negative values included, and every
non-empty prepared list, the index `seq mod count` computed by both
content accessors lies in `[0, count)` and the list lookup succeeds. -/
theorem C10_index_in_range (logic : Logic) (seq : Int)
    (h : 0 < (pySplit logic.media_list).length) :
    seqIndex seq (pySplit logic.media_list).length
      < (pySplit logic.media_list).length
    ∧ ((pySplit logic.media_list)[seqIndex seq
        (pySplit logic.media_list).length]?).isSome = true := by
  refine ⟨seqIndex_lt seq _ h, ?_⟩
  rw [List.getElem?_eq_getElem (seqIndex_lt seq _ h)]
  rfl

/-- Witness for C10 at `seq = -5` over a two-element list. -/
theorem C10_index_in_range_witness :
    0 < (pySplit (Logic.media_list ⟨1, "media", "*", "*", "sequential", "7 8", 2, ""⟩)).length
    ∧ seqIndex (-5) (pySplit (Logic.media_list
        ⟨1, "media", "*", "*", "sequential", "7 8", 2, ""⟩)).length
      < (pySplit (Logic.media_list ⟨1, "media", "*", "*", "sequential", "7 8", 2, ""⟩)).length
    ∧ ((pySplit (Logic.media_list ⟨1, "media", "*", "*", "sequential", "7 8", 2, ""⟩))[
        seqIndex (-5) (pySplit (Logic.media_list
          ⟨1, "media", "*", "*", "sequential", "7 8", 2, ""⟩)).length]?).isSome = true := by
  have h := C10_index_in_range ⟨1, "media", "*", "*", "sequential", "7 8", 2, ""⟩ (-5)
    (by decide)
  exact ⟨by decide, h.1, h.2⟩

/-- Counterexample to C8: with the wildcard tag filter `"*"`, a text
prep over a single txt record tagged `"a"` selects nothing — the record
is not selected even though its extension is `"txt"`, so the wildcard
does not apply to the tag filter in text mode. -/
theorem C8_counterexample :
    (prep 10 [⟨1, "txt", "a", "u1", ["x"]⟩] [] (fun l => l) "" ""
        ⟨3, "text", "*", "*", "sequential", "", 0, ""⟩).logic.media_count = 0
    ∧ (prep 10 [⟨1, "txt", "a", "u1", ["x"]⟩] [] (fun l => l) "" ""
        ⟨3, "text", "*", "*", "sequential", "", 0, ""⟩).logic.media_list = ""
    ∧ findTemp (prep 10 [⟨1, "txt", "a", "u1", ["x"]⟩] [] (fun l => l) "" ""
        ⟨3, "text", "*", "*", "sequential", "", 0, ""⟩).temps (textLogicName 3)
      = some "" := by
  decide

/-- C8 as amended: in text mode the tag filter has no wildcard branch;
with `media_tag = "*"` the text prep selects exactly those txt records
whose own tag list contains the literal token `"*"` (so a record is
selected iff `"*"` is one of its tags, not regardless of its tags). -/
theorem C8_text_wildcard_amended (maxCount : Nat) (catalog : List Media)
    (temps : TempTable) (shuffle : List Nat → List Nat) (ts1 ts2 : String)
    (logic : Logic)
    (himpl : logic.implement = "text")
    (htag : logic.media_tag = "*") :
    findTemp (prep maxCount catalog temps shuffle ts1 ts2 logic).temps
        (textLogicName logic.pk)
      = some (pyJoin (((catalog.filter (fun m =>
          m.ext = "txt" ∧ "*" ∈ pySplit m.tag)).map Media.lines).flatten)) := by
  have hps : pySplit "*" = ["*"] := rfl
  have hpred : ∀ m ∈ catalog, textAccepts (pySplit "*") m
      = decide (m.ext = "txt" ∧ "*" ∈ pySplit m.tag) := by
    intro m _
    simp only [textAccepts, hps]
    apply decide_eq_decide.mpr
    constructor
    · rintro ⟨h1, h2⟩
      refine ⟨h1, ?_⟩
      rcases List.any_eq_true.mp h2 with ⟨t, ht, hteq⟩
      have hts : t = "*" := by simpa using hteq
      exact hts ▸ ht
    · rintro ⟨h1, h2⟩
      exact ⟨h1, List.any_eq_true.mpr ⟨"*", h2, by simp⟩⟩
  rw [prep_eq_text maxCount catalog temps shuffle ts1 ts2 logic himpl, text_prep_eq]
  dsimp only
  rw [htag, textSelect_eq, List.filter_congr hpred]
  exact findTemp_setTemp temps _ _

/-- Witness for C8's amended statement: the record tagged `"* b"` is
selected, the record tagged `"a"` is not. -/
theorem C8_text_wildcard_amended_witness :
    findTemp (prep 10 [⟨1, "txt", "* b", "u1", ["x", "y"]⟩, ⟨2, "txt", "a", "u2", ["z"]⟩]
        [] (fun l => l) "" "" ⟨3, "text", "", "*", "sequential", "", 0, ""⟩).temps
        (textLogicName 3)
      = some (pyJoin ((([⟨1, "txt", "* b", "u1", ["x", "y"]⟩,
          ⟨2, "txt", "a", "u2", ["z"]⟩].filter (fun m : Media =>
          m.ext = "txt" ∧ "*" ∈ pySplit m.tag)).map Media.lines).flatten)) :=
  C8_text_wildcard_amended 10 [⟨1, "txt", "* b", "u1", ["x", "y"]⟩,
    ⟨2, "txt", "a", "u2", ["z"]⟩] [] (fun l => l) "" ""
    ⟨3, "text", "", "*", "sequential", "", 0, ""⟩ rfl rfl

theorem mem_textSelect (tl : List String) (line : String) :
    ∀ catalog : List Media, line ∈ textSelect tl catalog →
      ∃ m ∈ catalog, line ∈ m.lines := by
  intro catalog
  induction catalog with
  | nil => intro h; cases h
  | cons m rest ih =>
    intro h
    rw [textSelect] at h
    rcases List.mem_append.mp h with h | h
    · by_cases hm : textAccepts tl m = true
      · rw [if_pos hm] at h
        exact ⟨m, by simp, h⟩
      · rw [if_neg hm] at h
        cases h
    · rcases ih h with ⟨m2, hm2, hl⟩
      exact ⟨m2, by simp [hm2], hl⟩

/-- When every cached line contains a non-whitespace character, the
token list recovered from the cache is at least as long as the line
list. -/
theorem textCache_token_bound (txt : List String)
    (h : ∀ line ∈ txt, ∃ c ∈ line.data, pyIsSpace c = false) :
    txt.length ≤ (pySplit (pyJoin txt)).length := by
  rw [pySplit, pyJoin]
  rw [show (String.mk (joinChars (txt.map String.data))).data
        = joinChars (txt.map String.data) from rfl]
  rw [List.length_map]
  have hb := length_le_pyFields_joinChars (txt.map String.data) ?_
  · simpa using hb
  · intro t ht
    rcases List.mem_map.mp ht with ⟨s, hs, rfl⟩
    exact h s hs

/-- Counterexample to C9: a single matching txt record whose second line
is empty.  The prep writes `media_list = "0 1"` but the space-joined
cache splits back into a single token, so entry `"1"` is not a valid
index and `text_get_content` at `seq = 1` hits a list index that is out
of range (an `IndexError`, not a payload). -/
theorem C9_counterexample :
    (prep 10 [⟨1, "txt", "t", "u1", ["a", ""]⟩] [] (fun l => l) "" ""
        ⟨4, "text", "*", "t", "sequential", "", 0, ""⟩).logic.media_list = "0 1"
    ∧ (pySplit ((findTemp (prep 10 [⟨1, "txt", "t", "u1", ["a", ""]⟩] [] (fun l => l)
        "" "" ⟨4, "text", "*", "t", "sequential", "", 0, ""⟩).temps
        (textLogicName 4)).getD "")).length = 1
    ∧ text_get_content
        (prep 10 [⟨1, "txt", "t", "u1", ["a", ""]⟩] [] (fun l => l) "" ""
          ⟨4, "text", "*", "t", "sequential", "", 0, ""⟩).temps
        ⟨(prep 10 [⟨1, "txt", "t", "u1", ["a", ""]⟩] [] (fun l => l) "" ""
          ⟨4, "text", "*", "t", "sequential", "", 0, ""⟩).logic⟩ 1
      = Except.error Err.indexError := by
  refine ⟨by decide, by decide, ?_⟩
  rfl

/-- C9 as amended: provided every line of every catalog record contains
at least one non-whitespace character, then after a text-mode prep each
stored `media_list` entry parses to a valid index into the token list
recovered from the cache, the entries are pairwise distinct, and
`text_get_content` returns a payload (the no-data sentinel or a token)
for every `seq` — the list indexing never goes out of range.  (The
proviso is forced by the counterexample: an empty line makes the
space-joined cache lose a token.) -/
theorem C9_text_index_amended (maxCount : Nat) (catalog : List Media)
    (temps : TempTable) (shuffle : List Nat → List Nat) (ts1 ts2 : String)
    (logic : Logic) (seq : Int)
    (himpl : logic.implement = "text")
    (hshuf : ∀ l : List Nat, (shuffle l).Perm l)
    (hlines : ∀ m ∈ catalog, ∀ line ∈ m.lines,
      ∃ c ∈ line.data, pyIsSpace c = false) :
    (∀ e ∈ pySplit (prep maxCount catalog temps shuffle ts1 ts2 logic).logic.media_list,
      ∃ n : Nat, pyInt? e = some n
        ∧ n < (pySplit ((findTemp
            (prep maxCount catalog temps shuffle ts1 ts2 logic).temps
            (textLogicName logic.pk)).getD "")).length)
    ∧ (pySplit
        (prep maxCount catalog temps shuffle ts1 ts2 logic).logic.media_list).Nodup
    ∧ ∃ t : String,
        text_get_content (prep maxCount catalog temps shuffle ts1 ts2 logic).temps
          ⟨(prep maxCount catalog temps shuffle ts1 ts2 logic).logic⟩ seq
        = Except.ok ⟨"txt", t⟩ := by
  rw [prep_eq_text maxCount catalog temps shuffle ts1 ts2 logic himpl, text_prep_eq]
  dsimp only
  set tl := pySplit logic.media_tag with htl
  set txt := textSelect tl catalog with htxt
  set il := (if logic.media_order = "shuffle" then shuffle (List.range txt.length)
      else List.range txt.length) with hil
  set mi := min il.length maxCount with hmi
  have hperm : il.Perm (List.range txt.length) := by
    rw [hil]
    by_cases ho : logic.media_order = "shuffle"
    · rw [if_pos ho]; exact hshuf _
    · rw [if_neg ho]
  have hnodup : (il.take mi).Nodup :=
    List.Nodup.sublist (List.take_sublist mi il)
      (hperm.nodup_iff.mpr (List.nodup_range _))
  have hlt : ∀ x ∈ il.take mi, x < txt.length := by
    intro x hx
    exact List.mem_range.mp (hperm.mem_iff.mp (List.take_subset mi il hx))
  have hgood : ∀ line ∈ txt, ∃ c ∈ line.data, pyIsSpace c = false := by
    intro line hl
    rcases mem_textSelect tl line catalog hl with ⟨m, hm, hml⟩
    exact hlines m hm line hml
  have htok : txt.length ≤ (pySplit (pyJoin txt)).length :=
    textCache_token_bound txt hgood
  have hsplit : pySplit (pyJoin ((il.take mi).map toString))
      = (il.take mi).map toString := pySplit_pyJoin_nat _
  have hfind : findTemp (setTemp temps (textLogicName logic.pk) (pyJoin txt))
      (textLogicName logic.pk) = some (pyJoin txt) := findTemp_setTemp _ _ _
  rw [hsplit, hfind]
  simp only [Option.getD_some]
  refine ⟨?_, ?_, ?_⟩
  · intro e he
    rcases List.mem_map.mp he with ⟨x, hx, rfl⟩
    exact ⟨x, pyInt?_toString x, lt_of_lt_of_le (hlt x hx) htok⟩
  · exact List.Nodup.map (fun a b hab => toString_nat_inj hab) hnodup
  · by_cases hz : ((il.take mi).map toString).length = 0
    · refine ⟨"No data to show", ?_⟩
      simp only [text_get_content]
      rw [hsplit, if_pos hz]
    · have hpos : 0 < ((il.take mi).map toString).length := Nat.pos_of_ne_zero hz
      have hidxlt : seqIndex seq ((il.take mi).map toString).length
          < ((il.take mi).map toString).length := seqIndex_lt _ _ hpos
      have hgetd : ((il.take mi).map toString).getD
            (seqIndex seq ((il.take mi).map toString).length) ""
          = ((il.take mi).map toString)[seqIndex seq
              ((il.take mi).map toString).length] := by
        rw [List.getD_eq_getElem?_getD, List.getElem?_eq_getElem hidxlt,
          Option.getD_some]
      have hmem := List.getElem_mem hidxlt
      rcases List.mem_map.mp hmem with ⟨x, hx, hxe⟩
      have hparse : pyInt? (((il.take mi).map toString)[seqIndex seq
          ((il.take mi).map toString).length]) = some x := by
        rw [← hxe]; exact pyInt?_toString x
      have hxlt : x < (pySplit (pyJoin txt)).length :=
        lt_of_lt_of_le (hlt x hx) htok
      refine ⟨(pySplit (pyJoin txt))[x], ?_⟩
      simp only [text_get_content]
      rw [hsplit, if_neg hz, hfind]
      dsimp only
      rw [hgetd, hparse]
      dsimp only
      rw [List.getElem?_eq_getElem hxlt]

/-- Witness for C9's amended statement: whitespace-free lines, shuffled
prep, negative sequence number. -/
theorem C9_text_index_amended_witness :
    (pySplit (prep 10 [⟨1, "txt", "t", "u1", ["a", "b"]⟩] [] (fun l => l.reverse)
        "" "" ⟨4, "text", "*", "t", "shuffle", "", 0, ""⟩).logic.media_list).Nodup :=
  (C9_text_index_amended 10 [⟨1, "txt", "t", "u1", ["a", "b"]⟩] [] (fun l => l.reverse)
    "" "" ⟨4, "text", "*", "t", "shuffle", "", 0, ""⟩ (-7) rfl
    (fun l => List.reverse_perm l) (by decide)).2.1

end R3
